import Mathlib

/-!
Verification of the InvoiceFlow invoice-management core against its
natural-language specification.

The embedding translates the TypeScript source into Lean:
- decimal-string amounts (drizzle `decimal` columns) and JS numbers are
  modelled as rationals (`ℚ`);
- JS `Date` timestamps are modelled as natural numbers (milliseconds);
  `today.setHours(0,0,0,0)` becomes truncation to a multiple of the
  day length;
- nullable fields become `Option`; JS truthiness on strings treats the
  empty string as falsy;
- status values are the literal strings used by the source.
-/

namespace InvoiceFlow

/-- Milliseconds per day, the granularity of the JS `setHours(0,0,0,0)`
truncation used by `isInvoiceOverdue`. -/
def msPerDay : Nat := 86400000

/-- Model of `today.setHours(0, 0, 0, 0)`: truncate a millisecond timestamp
down to the start of its day. -/
def truncToDay (t : Nat) : Nat := t / msPerDay * msPerDay

theorem truncToDay_le (t : Nat) : truncToDay t ≤ t :=
  Nat.div_mul_le_self t msPerDay

/-! ## Money / percentage arithmetic (client/src/lib/invoiceUtils.ts) -/

/-- `const discountAmount = (subtotal * discountPercent) / 100` from
`calculateInvoiceTotal`. -/
def discountAmount (subtotal discountPercent : ℚ) : ℚ :=
  subtotal * discountPercent / 100

/-- `const taxableAmount = subtotal - discountAmount`. -/
def taxableAmount (subtotal discountPercent : ℚ) : ℚ :=
  subtotal - discountAmount subtotal discountPercent

/-- `const taxAmount = (taxableAmount * taxPercent) / 100`. -/
def taxAmount (subtotal discountPercent taxPercent : ℚ) : ℚ :=
  taxableAmount subtotal discountPercent * taxPercent / 100

/-- `calculateInvoiceTotal` from invoiceUtils.ts: subtract the discount from
the subtotal, compute tax on the post-discount amount, and return their sum.
The identical formula appears inline as `calculateTotal` in the invoice
form component. -/
def calculateInvoiceTotal (subtotal discountPercent taxPercent : ℚ) : ℚ :=
  taxableAmount subtotal discountPercent + taxAmount subtotal discountPercent taxPercent

/-! ## Status derivation (client/src/lib/invoiceUtils.ts) -/

/-- `isInvoiceOverdue(dueDate, status)` from invoiceUtils.ts.  The source
reads the system clock; here the clock reading is the explicit `now`
argument, and the source's `today.setHours(0,0,0,0)` is `truncToDay now`. -/
def isInvoiceOverdue (dueDate : Nat) (status : String) (now : Nat) : Bool :=
  if status = "paid" then false
  else decide (dueDate < truncToDay now)

/-- `getInvoiceStatus(currentStatus, dueDate)` from invoiceUtils.ts, with the
system-clock reading passed explicitly as `now`. -/
def getInvoiceStatus (currentStatus : String) (dueDate : Nat) (now : Nat) : String :=
  if currentStatus = "paid" ∨ currentStatus = "draft" then currentStatus
  else if isInvoiceOverdue dueDate currentStatus now then "overdue"
  else currentStatus

/-! ## Theorems for the discount/tax arithmetic -/

/-- C1: for subtotal ≥ 0 and discount, tax ∈ [0,100], `calculateInvoiceTotal`
returns exactly `(subtotal − subtotal*discount/100) * (1 + tax/100)` (the
discount is subtracted first and tax is computed on the post-discount
amount), and the result is nonnegative. -/
theorem calculateInvoiceTotal_formula_and_nonneg (s d t : ℚ)
    (hs : 0 ≤ s) (hd0 : 0 ≤ d) (hd : d ≤ 100) (ht0 : 0 ≤ t) (ht : t ≤ 100) :
    calculateInvoiceTotal s d t = (s - s * d / 100) * (1 + t / 100) ∧
    0 ≤ calculateInvoiceTotal s d t := by
  constructor
  · simp only [calculateInvoiceTotal, taxAmount, taxableAmount, discountAmount]
    ring
  · have h1 : 0 ≤ s * (100 - d) := mul_nonneg hs (by linarith)
    have h2 : (0:ℚ) ≤ 100 + t := by linarith
    simp only [calculateInvoiceTotal, taxAmount, taxableAmount, discountAmount]
    nlinarith [mul_nonneg h1 h2]

/-- Witness for C1 at subtotal 125, discount 10, tax 5. -/
theorem calculateInvoiceTotal_formula_and_nonneg_witness :
    calculateInvoiceTotal 125 10 5 = (125 - 125 * 10 / 100) * (1 + 5 / 100) ∧
    0 ≤ calculateInvoiceTotal 125 10 5 :=
  calculateInvoiceTotal_formula_and_nonneg 125 10 5
    (by norm_num) (by norm_num) (by norm_num) (by norm_num) (by norm_num)

/-- C7 counterexample: at subtotal 0 the tax-on-raw-subtotal value coincides
with `calculateInvoiceTotal` even though discount = 10 > 0 and tax = 5 > 0,
so the claim as stated (for every subtotal) is false. -/
theorem taxOnSubtotal_eq_total_at_zero :
    (0:ℚ) - 0 * 10 / 100 + 0 * 5 / 100 = calculateInvoiceTotal 0 10 5 ∧
    (0:ℚ) < 10 ∧ (0:ℚ) < 5 := by
  refine ⟨?_, by norm_num, by norm_num⟩
  simp [calculateInvoiceTotal, taxAmount, taxableAmount, discountAmount]

/-- C7 amended: for every nonzero subtotal and discount > 0, tax > 0,
computing tax on the raw subtotal (ignoring the discount) differs from
`calculateInvoiceTotal`, which taxes the post-discount amount. -/
theorem taxOnSubtotal_ne_total (s d t : ℚ)
    (hs : s ≠ 0) (hd : 0 < d) (ht : 0 < t) :
    s - s * d / 100 + s * t / 100 ≠ calculateInvoiceTotal s d t := by
  intro h
  simp only [calculateInvoiceTotal, taxAmount, taxableAmount, discountAmount] at h
  have hzero : s * d * t = 0 := by linear_combination (10000 : ℚ) * h
  exact mul_ne_zero (mul_ne_zero hs hd.ne') ht.ne' hzero

/-- Witness for the amended C7 at subtotal 100, discount 10, tax 5. -/
theorem taxOnSubtotal_ne_total_witness :
    (100:ℚ) - 100 * 10 / 100 + 100 * 5 / 100 ≠ calculateInvoiceTotal 100 10 5 :=
  taxOnSubtotal_ne_total 100 10 5 (by norm_num) (by norm_num) (by norm_num)

/-! ## Theorems for status derivation -/

/-- C2 counterexample: a cancelled invoice whose due date lies before the
start of today is reported as "overdue", so "cancelled" is not stable under
the derivation. Here dueDate = 0 and now = one full day later. -/
theorem getInvoiceStatus_cancelled_overridden :
    getInvoiceStatus "cancelled" 0 msPerDay = "overdue" ∧
    ("overdue" : String) ≠ "cancelled" := by
  constructor
  · decide
  · decide

/-- C2 amended: "draft" and "paid" are stable under the derivation, but
"cancelled" is not: it is overridden to "overdue" exactly when the due date
lies strictly before the start of now's day. -/
theorem getInvoiceStatus_stable_statuses (due now : Nat) :
    getInvoiceStatus "draft" due now = "draft" ∧
    getInvoiceStatus "paid" due now = "paid" ∧
    getInvoiceStatus "cancelled" due now =
      (if due < truncToDay now then "overdue" else "cancelled") := by
  refine ⟨by simp [getInvoiceStatus], by simp [getInvoiceStatus], ?_⟩
  by_cases h : due < truncToDay now <;>
    simp [getInvoiceStatus, isInvoiceOverdue, h]

/-- C3 counterexample: with dueDate = 0 and now = 1 (one millisecond past
the due instant) the derivation still returns "pending", although now is
strictly past the due date; the source compares against the start of now's
day, not against now itself. -/
theorem getInvoiceStatus_pending_not_overdue_midday :
    getInvoiceStatus "pending" 0 1 = "pending" ∧ (0:Nat) < 1 ∧
    ("pending" : String) ≠ "overdue" := by
  refine ⟨by decide, by decide, by decide⟩

/-- C3 amended: for a "pending" invoice the derivation returns "overdue"
exactly when the start of now's day is strictly past the due date
(`dueDate < truncToDay now`); in particular it returns "pending" whenever
now ≤ dueDate. -/
theorem getInvoiceStatus_pending_rule (due now : Nat) :
    (getInvoiceStatus "pending" due now = "overdue" ↔ due < truncToDay now) ∧
    (now ≤ due → getInvoiceStatus "pending" due now = "pending") := by
  constructor
  · by_cases h : due < truncToDay now <;>
      simp [getInvoiceStatus, isInvoiceOverdue, h]
  · intro hle
    have h : ¬ due < truncToDay now := by
      have := truncToDay_le now
      omega
    simp [getInvoiceStatus, isInvoiceOverdue, h]

/-- Witness for the amended C3 at dueDate = 7, now = 5 (now ≤ dueDate). -/
theorem getInvoiceStatus_pending_rule_witness :
    getInvoiceStatus "pending" 7 5 = "pending" :=
  (getInvoiceStatus_pending_rule 7 5).2 (by decide)

/-! ## Statistics aggregator (storage layer, `getInvoiceStats`) -/

/-- The per-invoice data the statistics scan reads: persisted status, the
stored total (`parseFloat(invoice.total)`), and the due-date timestamp. -/
structure StatsInvoice where
  status : String
  total : ℚ
  dueDate : Nat
deriving DecidableEq, Repr

/-- The aggregate produced by `getInvoiceStats`.  The source formats the
three amounts as `$x.toFixed(2)` strings at the very end; the model keeps
the numeric accumulators, which is how the claims read them. -/
structure InvoiceStats where
  totalInvoices : Nat
  pendingAmount : ℚ
  paidAmount : ℚ
  overdueAmount : ℚ
deriving DecidableEq, Repr

/-- Body of the `userInvoices.forEach` switch in `getInvoiceStats`: paid
totals accumulate into `paidAmount`; pending totals go to `overdueAmount`
when `new Date(invoice.dueDate) < now` (raw clock reading, no midnight
truncation) and to `pendingAmount` otherwise; persisted "overdue" goes to
`overdueAmount`; everything else (draft, cancelled, ...) falls into the
`default` branch and accumulates into `pendingAmount`. -/
def statsStep (now : Nat) (a : InvoiceStats) (inv : StatsInvoice) : InvoiceStats :=
  if inv.status = "paid" then { a with paidAmount := a.paidAmount + inv.total }
  else if inv.status = "pending" then
    if inv.dueDate < now then { a with overdueAmount := a.overdueAmount + inv.total }
    else { a with pendingAmount := a.pendingAmount + inv.total }
  else if inv.status = "overdue" then { a with overdueAmount := a.overdueAmount + inv.total }
  else { a with pendingAmount := a.pendingAmount + inv.total }

/-- `getInvoiceStats` from the storage layer: `totalInvoices` is the length
of the fetched list and the three amounts are accumulated by one pass of
`statsStep` over it. -/
def getInvoiceStats (invs : List StatsInvoice) (now : Nat) : InvoiceStats :=
  invs.foldl (statsStep now) ⟨invs.length, 0, 0, 0⟩

/-- The three statistics buckets. -/
inductive Bucket where
  | pending
  | paid
  | overdue
deriving DecidableEq, Repr

/-- The bucketing rule as the claim states it: paid first; otherwise
effectively-overdue (persisted "overdue", or "pending" with the due date
past now); all remaining invoices count as pending. -/
def bucketOf (now : Nat) (inv : StatsInvoice) : Bucket :=
  if inv.status = "paid" then .paid
  else if inv.status = "overdue" ∨ (inv.status = "pending" ∧ inv.dueDate < now) then .overdue
  else .pending

/-- Sum of the totals of the invoices that fall into bucket `b`. -/
def bucketTotal (now : Nat) (b : Bucket) (invs : List StatsInvoice) : ℚ :=
  ((invs.filter fun i => decide (bucketOf now i = b)).map fun i => i.total).sum

theorem bucketTotal_nil (now : Nat) (b : Bucket) : bucketTotal now b [] = 0 := rfl

theorem bucketTotal_cons (now : Nat) (b : Bucket) (i : StatsInvoice)
    (invs : List StatsInvoice) :
    bucketTotal now b (i :: invs) =
      (if bucketOf now i = b then i.total else 0) + bucketTotal now b invs := by
  by_cases h : bucketOf now i = b <;>
    simp [bucketTotal, List.filter_cons, h]

theorem foldl_statsStep (now : Nat) (invs : List StatsInvoice) (a : InvoiceStats) :
    invs.foldl (statsStep now) a =
      { totalInvoices := a.totalInvoices,
        pendingAmount := a.pendingAmount + bucketTotal now .pending invs,
        paidAmount := a.paidAmount + bucketTotal now .paid invs,
        overdueAmount := a.overdueAmount + bucketTotal now .overdue invs } := by
  induction invs generalizing a with
  | nil => simp [bucketTotal_nil]
  | cons i invs ih =>
      rw [List.foldl_cons, ih, bucketTotal_cons, bucketTotal_cons, bucketTotal_cons]
      by_cases h1 : i.status = "paid"
      · simp [statsStep, bucketOf, h1, add_assoc]
      · by_cases h2 : i.status = "pending"
        · by_cases h3 : i.dueDate < now
          · simp [statsStep, bucketOf, h1, h2, h3, add_assoc]
          · simp [statsStep, bucketOf, h1, h2, h3, add_assoc]
        · by_cases h4 : i.status = "overdue"
          · simp [statsStep, bucketOf, h1, h2, h4, add_assoc]
          · simp [statsStep, bucketOf, h1, h2, h4, add_assoc]

/-- C4: `getInvoiceStats` buckets every invoice's total by exactly the
claimed rule — paid status into `paidAmount`, otherwise effectively-overdue
(persisted "overdue", or "pending" with dueDate past now) into
`overdueAmount`, and everything else, in particular each draft and each
cancelled invoice, into `pendingAmount` — and counts the input list. -/
theorem getInvoiceStats_buckets (invs : List StatsInvoice) (now : Nat) :
    getInvoiceStats invs now =
      { totalInvoices := invs.length,
        pendingAmount := bucketTotal now .pending invs,
        paidAmount := bucketTotal now .paid invs,
        overdueAmount := bucketTotal now .overdue invs } ∧
    (∀ i : StatsInvoice, i.status = "draft" ∨ i.status = "cancelled" →
      bucketOf now i = .pending) := by
  constructor
  · rw [getInvoiceStats, foldl_statsStep]
    simp
  · rintro i (h | h) <;> simp [bucketOf, h]

/-- Witness for C4 on a concrete two-invoice list (one draft, one paid) at
now = 0, applying the theorem and evaluating both conjuncts. -/
theorem getInvoiceStats_buckets_witness :
    getInvoiceStats [⟨"draft", 3, 0⟩, ⟨"paid", 5, 0⟩] 0 =
      { totalInvoices := 2,
        pendingAmount := bucketTotal 0 .pending [⟨"draft", 3, 0⟩, ⟨"paid", 5, 0⟩],
        paidAmount := bucketTotal 0 .paid [⟨"draft", 3, 0⟩, ⟨"paid", 5, 0⟩],
        overdueAmount := bucketTotal 0 .overdue [⟨"draft", 3, 0⟩, ⟨"paid", 5, 0⟩] } ∧
    bucketOf 0 ⟨"draft", 3, 0⟩ = .pending :=
  ⟨(getInvoiceStats_buckets [⟨"draft", 3, 0⟩, ⟨"paid", 5, 0⟩] 0).1,
   (getInvoiceStats_buckets [⟨"draft", 3, 0⟩, ⟨"paid", 5, 0⟩] 0).2 ⟨"draft", 3, 0⟩ (Or.inl rfl)⟩

theorem bucketTotal_partitions (now : Nat) (invs : List StatsInvoice) :
    bucketTotal now .pending invs + bucketTotal now .paid invs +
      bucketTotal now .overdue invs = (invs.map fun i => i.total).sum := by
  induction invs with
  | nil => simp [bucketTotal_nil]
  | cons i invs ih =>
      rw [bucketTotal_cons, bucketTotal_cons, bucketTotal_cons, List.map_cons, List.sum_cons,
        ← ih]
      rcases h : bucketOf now i <;> simp [h] <;> ring

/-- C5: the three amounts of `getInvoiceStats`, read as numbers, sum to the
sum of all input invoice totals, and `totalInvoices` equals the length of
the input list. -/
theorem getInvoiceStats_conserves_sum (invs : List StatsInvoice) (now : Nat) :
    (getInvoiceStats invs now).pendingAmount + (getInvoiceStats invs now).paidAmount +
        (getInvoiceStats invs now).overdueAmount = (invs.map fun i => i.total).sum ∧
    (getInvoiceStats invs now).totalInvoices = invs.length := by
  rw [getInvoiceStats, foldl_statsStep]
  simp [bucketTotal_partitions]

/-- C6 (code bug): the aggregator and the badge derivation disagree.  A
"pending" invoice due at the start of day 10, observed at noon of day 10,
is counted into `overdueAmount` by `getInvoiceStats` (which compares the
due date against the raw clock reading) while `getInvoiceStatus` still
reports "pending" (it compares against the clock reading truncated to
midnight). -/
theorem stats_and_badge_disagree :
    (getInvoiceStats [⟨"pending", 100, 10 * msPerDay⟩] (10 * msPerDay + 43200000)).overdueAmount
        = 100 ∧
    (getInvoiceStats [⟨"pending", 100, 10 * msPerDay⟩] (10 * msPerDay + 43200000)).pendingAmount
        = 0 ∧
    getInvoiceStatus "pending" (10 * msPerDay) (10 * msPerDay + 43200000) = "pending" := by
  refine ⟨?_, ?_, ?_⟩
  · norm_num [getInvoiceStats, statsStep, msPerDay,
      show ("pending" : String) ≠ "paid" by decide]
  · norm_num [getInvoiceStats, statsStep, msPerDay,
      show ("pending" : String) ≠ "paid" by decide]
  · decide

/-! ## Invoice-with-details aggregate (shared/schema.ts)

Decimal columns come back from the store as decimal strings; the exporters
copy them into cells and text lines verbatim, so the model keeps them as
`String` here.  Nullable varchar/text columns become `Option String`. -/

/-- One invoice line item as the exporters see it. -/
structure InvoiceItem where
  description : String
  quantity : String
  rate : String
  amount : String
deriving DecidableEq, Repr

/-- The client joined onto an invoice. -/
structure Client where
  name : String
  email : Option String
  phone : Option String
  address : Option String
deriving DecidableEq, Repr

/-- The invoice-with-details aggregate consumed by both exporters. -/
structure InvoiceWithDetails where
  invoiceNumber : String
  issueDate : String
  dueDate : String
  status : String
  client : Client
  items : List InvoiceItem
  subtotal : String
  discount : Option String
  tax : Option String
  total : String
deriving DecidableEq, Repr

/-- JS `x || ''` on a nullable string: null/undefined and the empty string
both yield the empty string. -/
def orEmpty (o : Option String) : String := o.getD ""

/-- JS `x || dflt` on a nullable string: null/undefined and the empty
string fall back to the default. -/
def orDefault (o : Option String) (dflt : String) : String :=
  match o with
  | none => dflt
  | some s => if s.isEmpty then dflt else s

/-! ## Spreadsheet exporter (server/routes.ts, `/api/invoices/:id/excel`) -/

/-- One spreadsheet row for one item: `[item.description, item.quantity,
item.rate, item.amount]`, the raw cell values. -/
def itemRowOf (it : InvoiceItem) : List String :=
  [it.description, it.quantity, it.rate, it.amount]

/-- The `invoiceData` array-of-rows built by the excel export route,
transcribed row for row. -/
def invoiceData (inv : InvoiceWithDetails) : List (List String) :=
  [["Invoice Number", inv.invoiceNumber],
   ["Issue Date", inv.issueDate],
   ["Due Date", inv.dueDate],
   ["Status", inv.status],
   ["", ""],
   ["Bill To", ""],
   ["Client Name", inv.client.name],
   ["Email", orEmpty inv.client.email],
   ["Phone", orEmpty inv.client.phone],
   ["Address", orEmpty inv.client.address],
   ["", ""],
   ["Items", ""],
   ["Description", "Quantity", "Rate", "Amount"]]
  ++ inv.items.map itemRowOf
  ++ [["", ""],
      ["Subtotal", "", "", inv.subtotal],
      ["Discount (%)", "", "", orDefault inv.discount "0"],
      ["Tax (%)", "", "", orDefault inv.tax "0"],
      ["Total", "", "", inv.total]]

/-- The blank separator row emitted between sheet sections. -/
def blankRow : List String := ["", ""]

/-- The invoice-header key/value block of the sheet. -/
def invoiceHeaderRows (inv : InvoiceWithDetails) : List (List String) :=
  [["Invoice Number", inv.invoiceNumber],
   ["Issue Date", inv.issueDate],
   ["Due Date", inv.dueDate],
   ["Status", inv.status]]

/-- The client key/value block of the sheet, opened by a "Bill To" label
pair. -/
def clientRows (inv : InvoiceWithDetails) : List (List String) :=
  [["Bill To", ""],
   ["Client Name", inv.client.name],
   ["Email", orEmpty inv.client.email],
   ["Phone", orEmpty inv.client.phone],
   ["Address", orEmpty inv.client.address]]

/-- The item-table header row. -/
def itemHeaderRow : List String := ["Description", "Quantity", "Rate", "Amount"]

/-- The "Items" section-label row that the sheet emits between the second
blank separator and the item-table header row. -/
def itemsLabelRow : List String := ["Items", ""]

/-- The four summary rows, each with its value in the last column. -/
def summaryRows (inv : InvoiceWithDetails) : List (List String) :=
  [["Subtotal", "", "", inv.subtotal],
   ["Discount (%)", "", "", orDefault inv.discount "0"],
   ["Tax (%)", "", "", orDefault inv.tax "0"],
   ["Total", "", "", inv.total]]

/-- The sheet layout exactly as the claim enumerates it: header pairs,
blank, client pairs, blank, item-table header row, item rows, blank,
summary rows — with no section-label row before the item-table header. -/
def sheetRowsClaimed (inv : InvoiceWithDetails) : List (List String) :=
  invoiceHeaderRows inv ++ [blankRow] ++ clientRows inv ++ [blankRow]
    ++ [itemHeaderRow] ++ inv.items.map itemRowOf ++ [blankRow] ++ summaryRows inv

/-- The claim's enumeration amended with the "Items" label row the source
emits between the second blank separator and the item-table header row. -/
def sheetRowsAmended (inv : InvoiceWithDetails) : List (List String) :=
  invoiceHeaderRows inv ++ [blankRow] ++ clientRows inv ++ [blankRow]
    ++ [itemsLabelRow] ++ [itemHeaderRow] ++ inv.items.map itemRowOf
    ++ [blankRow] ++ summaryRows inv

/-- A concrete one-item example invoice used to exercise the exporters. -/
def exClient : Client :=
  { name := "Acme Corp", email := some "acme@example.com",
    phone := none, address := some "1 Main St" }

/-- The single line item of `exInv`. -/
def exItem : InvoiceItem :=
  { description := "Consulting", quantity := "2.00", rate := "50.00", amount := "100.00" }

/-- The example invoice-with-details aggregate. -/
def exInv : InvoiceWithDetails :=
  { invoiceNumber := "INV-001", issueDate := "2024-01-01", dueDate := "2024-02-01",
    status := "pending", client := exClient, items := [exItem],
    subtotal := "100.00", discount := some "10", tax := some "5", total := "94.50" }

/-- C8 counterexample: on the example invoice the rows the route produces
differ from the claim's exact enumeration — the sheet contains an "Items"
label row between the second blank separator and the item-table header
row, which the enumeration omits. -/
theorem invoiceData_ne_claimed_rows :
    invoiceData exInv ≠ sheetRowsClaimed exInv ∧
    (invoiceData exInv).get? 11 = some ["Items", ""] := by
  constructor
  · decide
  · decide

theorem invoiceData_eq_amended (inv : InvoiceWithDetails) :
    invoiceData inv = sheetRowsAmended inv := by
  simp only [invoiceData, sheetRowsAmended, invoiceHeaderRows, clientRows, summaryRows,
    blankRow, itemsLabelRow, itemHeaderRow, List.append_assoc, List.cons_append,
    List.nil_append]

/-- C8 amended: the sheet rows are exactly — invoice header pairs, blank,
client pairs (opened by a "Bill To" label pair), blank, an "Items" label
row, the item-table header row, one row per item in input order carrying
the raw description/quantity/rate/amount cell values, blank, and the four
summary rows with their values in the last column; re-reading row 13+i
reproduces item i verbatim. -/
theorem invoiceData_rows (inv : InvoiceWithDetails) :
    invoiceData inv = sheetRowsAmended inv ∧
    (∀ i it, inv.items.get? i = some it →
      (invoiceData inv).get? (13 + i) = some (itemRowOf it)) := by
  refine ⟨invoiceData_eq_amended inv, ?_⟩
  intro i it h
  have hlt : i < inv.items.length := by
    by_contra hge
    rw [List.get?_eq_none.mpr (by omega)] at h
    simp at h
  rw [Nat.add_comm 13 i]
  show (inv.items.map itemRowOf ++
      ([["", ""],
        ["Subtotal", "", "", inv.subtotal],
        ["Discount (%)", "", "", orDefault inv.discount "0"],
        ["Tax (%)", "", "", orDefault inv.tax "0"],
        ["Total", "", "", inv.total]] : List (List String))).get? i = some (itemRowOf it)
  rw [List.get?_append (by simpa using hlt)]
  rw [List.get?_map, h]
  rfl

/-- Witness for C8 on the example invoice: its first item row sits at
index 13 and reproduces the item verbatim. -/
theorem invoiceData_rows_witness :
    (invoiceData exInv).get? (13 + 0) = some (itemRowOf exItem) :=
  (invoiceData_rows exInv).2 0 exItem rfl

/-! ## PDF exporter (server/routes.ts, `/api/invoices/:id/pdf`) -/

/-- Numeric value of the digits of a decimal string. -/
def digitsToNat (l : List Char) : Nat :=
  l.foldl (fun n c => 10 * n + (c.toNat - 48)) 0

/-- Split a character list at its first dot, if any. -/
def splitAtDot : List Char → List Char × Option (List Char)
  | [] => ([], none)
  | c :: rest =>
      if c = '.' then ([], some rest)
      else
        let p := splitAtDot rest
        (c :: p.1, p.2)

/-- Model of JS `parseFloat` restricted to the nonnegative decimal strings
the store produces (`digits`, `digits.digits`, `.digits`, `digits.`);
anything else parses to `none`, standing for NaN. -/
def parseDecimal (s : String) : Option ℚ :=
  let p := splitAtDot s.data
  match p.2 with
  | none =>
      if (!p.1.isEmpty) && p.1.all Char.isDigit then some (digitsToNat p.1) else none
  | some fr =>
      if (!(p.1.isEmpty && fr.isEmpty)) && p.1.all Char.isDigit && fr.all Char.isDigit then
        some ((digitsToNat p.1 : ℚ) + (digitsToNat fr : ℚ) / (10 : ℚ) ^ fr.length)
      else none

/-- JS truthiness of a nullable string: null/undefined and the empty string
are falsy. -/
def strTruthy (o : Option String) : Bool :=
  match o with
  | none => false
  | some s => !s.isEmpty

/-- The guard `invoice.discount && parseFloat(invoice.discount) > 0` used by
the PDF route for the discount line (and likewise for the tax line): the
field must be truthy and parse to a value strictly greater than zero. -/
def pdfPctShown (o : Option String) : Bool :=
  match o with
  | none => false
  | some d =>
      if d.isEmpty then false
      else
        match parseDecimal d with
        | some q => decide (0 < q)
        | none => false

/-- One `doc.text(text, x, y)` call of the PDF route. -/
structure PdfText where
  text : String
  x : Nat
  y : Nat
deriving DecidableEq, Repr

/-- The `invoice.items.forEach` loop of the PDF route: each item emits its
four cells at the current vertical cursor, which then advances by 10; the
pair returns the emitted lines and the final cursor. -/
def itemsLoop : List InvoiceItem → Nat → List PdfText × Nat
  | [], y => ([], y)
  | it :: rest, y =>
      ([⟨it.description, 20, y⟩, ⟨it.quantity, 120, y⟩,
        ⟨"$" ++ it.rate, 140, y⟩, ⟨"$" ++ it.amount, 160, y⟩]
        ++ (itemsLoop rest (y + 10)).1,
       (itemsLoop rest (y + 10)).2)

/-- A conditional percentage line of the totals block: emitted at the
current cursor, advancing it by 10, exactly when the guard holds. -/
def pctLine (label : String) (o : Option String) (y : Nat) : List PdfText × Nat :=
  if pdfPctShown o then ([⟨label ++ ": " ++ orEmpty o ++ "%", 120, y⟩], y + 10)
  else ([], y)

/-- The fixed header of the PDF: title, invoice fields, and the Bill To
block up to the client name. -/
def pdfHeaderLines (inv : InvoiceWithDetails) : List PdfText :=
  [⟨"INVOICE", 20, 30⟩,
   ⟨"Invoice #: " ++ inv.invoiceNumber, 20, 50⟩,
   ⟨"Issue Date: " ++ inv.issueDate, 20, 60⟩,
   ⟨"Due Date: " ++ inv.dueDate, 20, 70⟩,
   ⟨"Bill To:", 20, 90⟩,
   ⟨inv.client.name, 20, 100⟩]

/-- The item-table column header row of the PDF. -/
def tableHeaderLines : List PdfText :=
  [⟨"Description", 20, 130⟩, ⟨"Qty", 120, 130⟩, ⟨"Rate", 140, 130⟩, ⟨"Amount", 160, 130⟩]

/-- All `doc.text` calls of the PDF route in emission order: header block,
the conditional client address at y = 110, the table header at y = 130, the
item rows from y = 140 on, then the totals block (subtotal, conditional
discount, conditional tax, total) threading the vertical cursor exactly as
the route does. -/
def pdfTexts (inv : InvoiceWithDetails) : List PdfText :=
  let addr :=
    if strTruthy inv.client.address then [⟨orEmpty inv.client.address, 20, 110⟩] else []
  let p := itemsLoop inv.items 140
  let y0 := p.2 + 10
  let q := pctLine "Discount" inv.discount (y0 + 10)
  let r := pctLine "Tax" inv.tax q.2
  pdfHeaderLines inv ++ addr ++ tableHeaderLines ++ p.1
    ++ [⟨"Subtotal: $" ++ inv.subtotal, 120, y0⟩] ++ q.1 ++ r.1
    ++ [⟨"Total: $" ++ inv.total, 120, r.2⟩]

theorem itemsLoop_snd (its : List InvoiceItem) (y : Nat) :
    (itemsLoop its y).2 = y + 10 * its.length := by
  induction its generalizing y with
  | nil => simp [itemsLoop]
  | cons it rest ih =>
      simp only [itemsLoop, ih, List.length_cons]
      ring

theorem itemsLoop_fst_length (its : List InvoiceItem) (y : Nat) :
    (itemsLoop its y).1.length = 4 * its.length := by
  induction its generalizing y with
  | nil => simp [itemsLoop]
  | cons it rest ih =>
      simp only [itemsLoop, List.length_append, List.length_cons, List.length_nil, ih]
      ring

theorem itemsLoop_mem_y (its : List InvoiceItem) (y : Nat) :
    ∀ l ∈ (itemsLoop its y).1, y ≤ l.y := by
  induction its generalizing y with
  | nil => simp [itemsLoop]
  | cons it rest ih =>
      intro l hl
      have hrw : (itemsLoop (it :: rest) y).1 =
          [⟨it.description, 20, y⟩, ⟨it.quantity, 120, y⟩,
           ⟨"$" ++ it.rate, 140, y⟩, ⟨"$" ++ it.amount, 160, y⟩]
          ++ (itemsLoop rest (y + 10)).1 := rfl
      rw [hrw] at hl
      simp only [List.mem_append, List.mem_cons, List.not_mem_nil, or_false] at hl
      rcases hl with ((h | h | h | h) | h)
      · simp [h]
      · simp [h]
      · simp [h]
      · simp [h]
      · have := ih (y + 10) l h
        omega

/-- Closed form of `pdfTexts`: the same lines with every vertical position
expressed directly in terms of the item count and the two guards, replacing
the threaded cursor. -/
theorem pdfTexts_eq (inv : InvoiceWithDetails) :
    pdfTexts inv =
      pdfHeaderLines inv
      ++ (if strTruthy inv.client.address then
            [⟨orEmpty inv.client.address, 20, 110⟩] else [])
      ++ tableHeaderLines
      ++ (itemsLoop inv.items 140).1
      ++ [⟨"Subtotal: $" ++ inv.subtotal, 120, 150 + 10 * inv.items.length⟩]
      ++ (if pdfPctShown inv.discount then
            [⟨"Discount: " ++ orEmpty inv.discount ++ "%", 120,
              160 + 10 * inv.items.length⟩] else [])
      ++ (if pdfPctShown inv.tax then
            [⟨"Tax: " ++ orEmpty inv.tax ++ "%", 120,
              160 + 10 * inv.items.length
                + (if pdfPctShown inv.discount then 10 else 0)⟩] else [])
      ++ [⟨"Total: $" ++ inv.total, 120,
            160 + 10 * inv.items.length
              + (if pdfPctShown inv.discount then 10 else 0)
              + (if pdfPctShown inv.tax then 10 else 0)⟩] := by
  have hploop := itemsLoop_snd inv.items 140
  have e1 : 140 + 10 * inv.items.length + 10 = 150 + 10 * inv.items.length := by omega
  have e2 : 150 + 10 * inv.items.length + 10 = 160 + 10 * inv.items.length := by omega
  have e3 : 160 + 10 * inv.items.length + 10 = 170 + 10 * inv.items.length := by omega
  have e4 : 170 + 10 * inv.items.length + 10 = 180 + 10 * inv.items.length := by omega
  cases hd : pdfPctShown inv.discount <;> cases htx : pdfPctShown inv.tax <;>
    simp [pctLine, pdfTexts, hd, htx, hploop, e1, e2, e3, e4]

/-- C9: the PDF layout emits its conditional lines exactly as claimed: the
address line (the unique line at y = 110) appears exactly when the client
address is truthy; each of the discount and the tax line contributes a line
exactly when its percentage guard holds (the line-count formula); the
subtotal line is always present; when shown, the discount and tax lines sit
in the totals block at their fixed offsets; and the total line is always
the last emitted line. -/
theorem pdfTexts_conditional_layout (inv : InvoiceWithDetails) :
    ((pdfTexts inv).countP (fun l => l.y == 110)
        = if strTruthy inv.client.address then 1 else 0) ∧
    ((pdfTexts inv).length = 12 + 4 * inv.items.length
        + (if strTruthy inv.client.address then 1 else 0)
        + (if pdfPctShown inv.discount then 1 else 0)
        + (if pdfPctShown inv.tax then 1 else 0)) ∧
    (⟨"Subtotal: $" ++ inv.subtotal, 120, 150 + 10 * inv.items.length⟩ ∈ pdfTexts inv) ∧
    (pdfPctShown inv.discount = true →
      ∃ d, inv.discount = some d ∧
        ⟨"Discount: " ++ d ++ "%", 120, 160 + 10 * inv.items.length⟩ ∈ pdfTexts inv) ∧
    (pdfPctShown inv.tax = true →
      ∃ t, inv.tax = some t ∧
        ⟨"Tax: " ++ t ++ "%", 120,
          160 + 10 * inv.items.length
            + (if pdfPctShown inv.discount then 10 else 0)⟩ ∈ pdfTexts inv) ∧
    ((pdfTexts inv).getLast? =
      some ⟨"Total: $" ++ inv.total, 120,
        160 + 10 * inv.items.length
          + (if pdfPctShown inv.discount then 10 else 0)
          + (if pdfPctShown inv.tax then 10 else 0)⟩) := by
  have hitems : ((itemsLoop inv.items 140).1).countP (fun l => l.y == 110) = 0 := by
    rw [List.countP_eq_zero]
    intro l hl
    have := itemsLoop_mem_y inv.items 140 l hl
    simp only [beq_iff_eq]
    omega
  refine ⟨?_, ?_, ?_, ?_, ?_, ?_⟩
  · -- count of lines at y = 110
    rw [pdfTexts_eq]
    by_cases ha : strTruthy inv.client.address <;>
      cases hd : pdfPctShown inv.discount <;> cases htx : pdfPctShown inv.tax <;>
      simp [ha, hd, htx, List.countP_append, List.countP_cons, hitems,
        pdfHeaderLines, tableHeaderLines] <;> omega
  · -- line-count formula
    rw [pdfTexts_eq]
    simp only [List.length_append, itemsLoop_fst_length]
    by_cases ha : strTruthy inv.client.address <;>
      cases hd : pdfPctShown inv.discount <;> cases htx : pdfPctShown inv.tax <;>
      simp [ha, hd, htx, pdfHeaderLines, tableHeaderLines] <;> omega
  · -- subtotal line membership
    rw [pdfTexts_eq]
    simp [List.mem_append]
  · -- discount line membership when shown
    intro hd
    rcases ho : inv.discount with _ | d
    · rw [ho] at hd; simp [pdfPctShown] at hd
    · refine ⟨d, rfl, ?_⟩
      rw [pdfTexts_eq, ho]
      have hd2 : pdfPctShown (some d) = true := by rw [← ho]; exact hd
      simp [List.mem_append, hd2, orEmpty]
  · -- tax line membership when shown
    intro htx
    rcases ho : inv.tax with _ | t
    · rw [ho] at htx; simp [pdfPctShown] at htx
    · refine ⟨t, rfl, ?_⟩
      rw [pdfTexts_eq, ho]
      have ht2 : pdfPctShown (some t) = true := by rw [← ho]; exact htx
      simp [List.mem_append, ht2, orEmpty]
  · -- total line is last
    rw [pdfTexts_eq]
    rw [List.getLast?_concat]

/-- Witness for C9 on the example invoice (discount "10", tax "5", address
present): the discount line is emitted at y = 170. -/
theorem pdfTexts_conditional_layout_witness :
    ∃ d, exInv.discount = some d ∧
      ⟨"Discount: " ++ d ++ "%", 120, 160 + 10 * exInv.items.length⟩ ∈ pdfTexts exInv :=
  (pdfTexts_conditional_layout exInv).2.2.2.1 (by decide)

/-! ## Invoice validation (client/src/lib/invoiceUtils.ts, `validateInvoiceData`) -/

/-- The fields of the form data that `validateInvoiceData` inspects.
Missing/null fields are `none`; `clientId` is a JS number whose truthiness
also excludes 0; the two dates are parsed timestamps. -/
structure InvoiceDraft where
  invoiceNumber : Option String
  clientId : Option Nat
  issueDate : Option Nat
  dueDate : Option Nat
deriving DecidableEq, Repr

/-- JS `!s.trim()`: a string is blank after trimming exactly when dropping
its leading whitespace leaves nothing. -/
def blankAfterTrim (s : String) : Bool :=
  (s.data.dropWhile Char.isWhitespace).isEmpty

/-- `!invoice.invoiceNumber?.trim()`: the field is missing, or blank after
trimming. -/
def numberMissing (inv : InvoiceDraft) : Bool :=
  match inv.invoiceNumber with
  | none => true
  | some s => blankAfterTrim s

/-- `!invoice.clientId`: the field is missing or the (falsy) number 0. -/
def clientMissing (inv : InvoiceDraft) : Bool :=
  match inv.clientId with
  | none => true
  | some n => n == 0

/-- `new Date(invoice.dueDate) < new Date(invoice.issueDate)`: with either
date missing the JS comparison involves NaN and is false, so the check only
fires when both dates are present. -/
def dueBeforeIssue (inv : InvoiceDraft) : Bool :=
  match inv.dueDate, inv.issueDate with
  | some d, some i => decide (d < i)
  | _, _ => false

/-- `validateInvoiceData` from invoiceUtils.ts: push one fixed message per
violated check, in source order, and return the collected list. -/
def validateInvoiceData (inv : InvoiceDraft) : List String :=
  (if numberMissing inv then ["Invoice number is required"] else [])
  ++ (if clientMissing inv then ["Client is required"] else [])
  ++ (if inv.issueDate.isNone then ["Issue date is required"] else [])
  ++ (if inv.dueDate.isNone then ["Due date is required"] else [])
  ++ (if dueBeforeIssue inv then ["Due date must be after issue date"] else [])

/-- C10: `validateInvoiceData` returns the empty list exactly when the
invoice number is present and non-blank after trimming, the client id is
present (truthy), both dates are present, and the due date is not before
the issue date; each violated condition contributes its own distinct
message (the membership characterisations), and the result never repeats a
message.  The embedding is purely functional, so the input is never
modified. -/
theorem validateInvoiceData_spec (inv : InvoiceDraft) :
    (validateInvoiceData inv = [] ↔
      ((∃ s, inv.invoiceNumber = some s ∧ blankAfterTrim s = false) ∧
       (∃ n, inv.clientId = some n ∧ n ≠ 0) ∧
       inv.issueDate.isSome = true ∧
       inv.dueDate.isSome = true ∧
       (∀ d i, inv.dueDate = some d → inv.issueDate = some i → ¬ d < i))) ∧
    ("Invoice number is required" ∈ validateInvoiceData inv ↔
      ¬ ∃ s, inv.invoiceNumber = some s ∧ blankAfterTrim s = false) ∧
    ("Client is required" ∈ validateInvoiceData inv ↔
      ¬ ∃ n, inv.clientId = some n ∧ n ≠ 0) ∧
    ("Issue date is required" ∈ validateInvoiceData inv ↔ inv.issueDate = none) ∧
    ("Due date is required" ∈ validateInvoiceData inv ↔ inv.dueDate = none) ∧
    ("Due date must be after issue date" ∈ validateInvoiceData inv ↔
      ∃ d i, inv.dueDate = some d ∧ inv.issueDate = some i ∧ d < i) ∧
    (validateInvoiceData inv).Nodup := by
  obtain ⟨num, cid, iss, due⟩ := inv
  cases num <;> cases cid <;> cases iss <;> cases due <;>
    simp_all [validateInvoiceData, numberMissing, clientMissing, dueBeforeIssue] <;>
    (repeat' split) <;>
    simp_all

/-- Witness for C10: a fully valid draft validates to the empty list. -/
theorem validateInvoiceData_spec_witness :
    validateInvoiceData ⟨some "INV-1", some 1, some 0, some 5⟩ = [] := by
  have h := validateInvoiceData_spec ⟨some "INV-1", some 1, some 0, some 5⟩
  exact h.1.mpr ⟨⟨"INV-1", rfl, by decide⟩, ⟨1, rfl, one_ne_zero⟩, rfl, rfl,
    by intro d i hdd hii; injection hdd with hdd; injection hii with hii; omega⟩

end InvoiceFlow
